import Mathlib

/-!
Shallow embedding of the `bwm_claude` Frappe/ERPNext customization app.

Source files embedded:
* `bwm_claude/interunit_transfer.py` — before-submit GL overrides on
  Sales Invoice and Delivery Note for BWM-internal customers.
* `bwm_claude/overrides/work_order.py` — unreturned-RM guard on Work Order
  Close/Stop, and the `return_and_close` reconciliation routine.

Quantities are modelled as exact rationals; Python's `round(x, 3)` becomes
`round3`, mathematical rounding to the 1/1000 grid.  Database reads become
lookups over explicit lists (the relevant table rows); `frappe.throw`
becomes an `Except.error` carrying the structured content of the message.
-/

namespace BWM

/-- Python truthiness-based `a or b` on optional strings: `None` and the
empty string are falsy. -/
def pyOrS (a b : Option String) : Option String :=
  match a with
  | none => b
  | some s => if s = "" then b else some s

/-- A string option is Python-falsy (`None` or `""`). -/
def strFalsy (a : Option String) : Bool :=
  match a with
  | none => true
  | some s => s = ""

/-- Python `round(x, 3)`: round to the nearest multiple of 1/1000. -/
def round3 (q : ℚ) : ℚ := (round (1000 * q) : ℤ) / 1000

/-- `q` lies on the 1/1000 grid (is an exact 3-decimal quantity). -/
def Grid (q : ℚ) : Prop := ∃ k : ℤ, q = k / 1000

theorem round3_grid (q : ℚ) (h : Grid q) : round3 q = q := by
  obtain ⟨k, rfl⟩ := h
  have h1000 : (1000 : ℚ) ≠ 0 := by norm_num
  have : (1000 : ℚ) * (k / 1000) = (k : ℚ) := by field_simp
  simp [round3, this]

theorem grid_round3 (q : ℚ) : Grid (round3 q) := ⟨round (1000 * q), rfl⟩

theorem grid_min {a b : ℚ} (ha : Grid a) (hb : Grid b) : Grid (min a b) := by
  rcases le_total a b with h | h
  · simpa [min_eq_left h] using ha
  · simpa [min_eq_right h] using hb

theorem grid_sub {a b : ℚ} (ha : Grid a) (hb : Grid b) : Grid (a - b) := by
  obtain ⟨j, rfl⟩ := ha
  obtain ⟨k, rfl⟩ := hb
  exact ⟨j - k, by push_cast; ring⟩

/-! ## Data model: `interunit_transfer.py` -/

/-- An `Account` row: primary key `name`, looked up by number and company. -/
structure Account where
  name : String
  account_number : String
  company : String
deriving DecidableEq

/-- A `Customer` row: `flag` models `custom_is_bwm_internal_entity`
(`none` when unset). -/
structure Customer where
  name : String
  flag : Option Int
deriving DecidableEq

/-- The slice of the site database the interunit hooks read. -/
structure IUDb where
  accounts : List Account
  customers : List Customer
deriving DecidableEq

/-- A Sales Invoice item row. -/
structure SIItem where
  idx : Nat
  income_account : Option String
  custom_original_income_account : Option String
deriving DecidableEq

/-- A Sales Invoice document (the fields the hook touches). -/
structure SalesInvoice where
  customer : Option String
  company : String
  items : List SIItem
  custom_is_branch_transfer : Int
deriving DecidableEq

/-- A Delivery Note item row. -/
structure DNItem where
  idx : Nat
  expense_account : Option String
  custom_original_expense_account : Option String
deriving DecidableEq

/-- A Delivery Note document (the fields the hook touches). -/
structure DeliveryNote where
  customer : Option String
  company : String
  items : List DNItem
  custom_is_branch_transfer : Int
deriving DecidableEq

/-- Errors raised (`frappe.throw`) by the interunit hooks, as structured
data in place of the rendered message strings. -/
inductive IUError where
  | missingInterunitAccount (company : String)
  | overrideFailed (idx : Nat) (account : String)
deriving DecidableEq

/-- `INTERUNIT_ACCOUNT_NUMBER` -/
def INTERUNIT_ACCOUNT_NUMBER : String := "14120"

/-- `SALES_ACCOUNT_NUMBER` -/
def SALES_ACCOUNT_NUMBER : String := "31101"

/-- `COGS_ACCOUNT_NUMBER` -/
def COGS_ACCOUNT_NUMBER : String := "41103"

/-- `_get_account_by_number`: resolve an account name from its number for a
company (`frappe.db.get_value` returns the first matching row's name). -/
def get_account_by_number (db : IUDb) (account_number company : String) :
    Option String :=
  (db.accounts.find? fun a =>
    a.account_number = account_number ∧ a.company = company).map (·.name)

/-- `_get_interunit_account`: the 14120 account, or a thrown error. -/
def get_interunit_account (db : IUDb) (company : String) :
    Except IUError String :=
  match get_account_by_number db INTERUNIT_ACCOUNT_NUMBER company with
  | none => .error (.missingInterunitAccount company)
  | some a => .ok a

/-- `_is_bwm_internal_customer`. -/
def is_bwm_internal_customer (db : IUDb) (customer : Option String) : Bool :=
  if strFalsy customer then false
  else
    match customer with
    | none => false
    | some c => (db.customers.find? (·.name = c)).bind (·.flag) = some 1

/-- `si_before_submit`: the Sales Invoice before-submit hook, as a pure
transformation of the document (a thrown error aborts the submit). -/
def si_before_submit (db : IUDb) (doc : SalesInvoice) :
    Except IUError SalesInvoice :=
  if ¬ is_bwm_internal_customer db doc.customer then .ok doc
  else
    match get_account_by_number db INTERUNIT_ACCOUNT_NUMBER doc.company with
    | none => .error (.missingInterunitAccount doc.company)
    | some interunit_account =>
      let items := doc.items.map fun it =>
        { it with
          custom_original_income_account := some (it.income_account.getD "")
          income_account := some interunit_account }
      let doc := { doc with items := items, custom_is_branch_transfer := 1 }
      match get_account_by_number db SALES_ACCOUNT_NUMBER doc.company with
      | none => .ok doc
      | some sales_account =>
        match items.find? (fun it => it.income_account = some sales_account) with
        | some it => .error (.overrideFailed it.idx sales_account)
        | none => .ok doc

/-- `dn_before_submit`: the Delivery Note before-submit hook. -/
def dn_before_submit (db : IUDb) (doc : DeliveryNote) :
    Except IUError DeliveryNote :=
  if ¬ is_bwm_internal_customer db doc.customer then .ok doc
  else
    match get_account_by_number db INTERUNIT_ACCOUNT_NUMBER doc.company with
    | none => .error (.missingInterunitAccount doc.company)
    | some interunit_account =>
      let items := doc.items.map fun it =>
        { it with
          custom_original_expense_account := some (it.expense_account.getD "")
          expense_account := some interunit_account }
      let doc := { doc with items := items, custom_is_branch_transfer := 1 }
      match get_account_by_number db COGS_ACCOUNT_NUMBER doc.company with
      | none => .ok doc
      | some cogs_account =>
        match items.find? (fun it => it.expense_account = some cogs_account) with
        | some it => .error (.overrideFailed it.idx cogs_account)
        | none => .ok doc

/-! ## Data model: `overrides/work_order.py` -/

/-- A Work Order required-item row; quantity fields are `Option` because the
code defends against unset values with `or 0`. -/
structure ReqItem where
  item_code : String
  item_name : String
  transferred_qty : Option ℚ
  consumed_qty : Option ℚ
  returned_qty : Option ℚ
  stock_uom : String
  source_warehouse : Option String
deriving DecidableEq

/-- A Work Order document (the fields the overrides read). -/
structure WorkOrder where
  name : String
  company : String
  required_items : List ReqItem
  cost_center : Option String
  wip_warehouse : String
  source_warehouse : Option String
  produced_qty : ℚ
  qty : ℚ
deriving DecidableEq

/-- A `Stock Entry Detail` row joined with its parent `Stock Entry`'s
fields, i.e. one row of the join the two SQL queries run over. -/
structure SEDRow where
  se_work_order : String
  se_purpose : String
  se_is_return : Int
  se_docstatus : Int
  item_code : String
  batch_no : Option String
  qty : ℚ
  basic_amount : ℚ
  s_warehouse : Option String
  t_warehouse : Option String
deriving DecidableEq

/-- One entry of the `excess_items` list built by `_get_excess_items`. -/
structure ExcessItem where
  item_code : String
  item_name : String
  excess_qty : ℚ
  stock_uom : String
  transferred : ℚ
  consumed : ℚ
  returned : ℚ
  source_warehouse : Option String
deriving DecidableEq

/-- The excess of one required item:
`round(transferred - consumed - returned, 3)` with missing values as 0. -/
def itemExcess (it : ReqItem) : ℚ :=
  round3 (it.transferred_qty.getD 0 - it.consumed_qty.getD 0 -
    it.returned_qty.getD 0)

/-- `_get_excess_items`: the items whose excess exceeds 0.01. -/
def get_excess_items (wo : WorkOrder) : List ExcessItem :=
  (wo.required_items.filter fun it => itemExcess it > 1/100).map fun it =>
    { item_code := it.item_code
      item_name := it.item_name
      excess_qty := itemExcess it
      stock_uom := it.stock_uom
      transferred := it.transferred_qty.getD 0
      consumed := it.consumed_qty.getD 0
      returned := it.returned_qty.getD 0
      source_warehouse := it.source_warehouse }

/-- Errors raised by the work-order overrides, as structured data. -/
inductive WOError where
  | unreturnedRM (action : String) (wo_name : String)
      (excess_items : List ExcessItem)
  | cannotDetermineWarehouse (item_code : String)
deriving DecidableEq

/-- A delegated call to a native ERPNext whitelisted function, with the
arguments it receives. -/
inductive NativeCall where
  | close_work_order (work_order status : String)
  | stop_unstop (work_order status : String)
deriving DecidableEq

/-- `_validate_no_unreturned_rm`: throw when any excess item exists. -/
def validate_no_unreturned_rm (wo : WorkOrder) (action_label : String) :
    Except WOError Unit :=
  match get_excess_items wo with
  | [] => .ok ()
  | e :: es => .error (.unreturnedRM action_label wo.name (e :: es))

/-- `close_work_order_with_rm_check`. -/
def close_work_order_with_rm_check (wo : WorkOrder) (status : String) :
    Except WOError NativeCall :=
  if status = "Closed" then
    match validate_no_unreturned_rm wo "Close" with
    | .error e => .error e
    | .ok _ => .ok (.close_work_order wo.name status)
  else
    .ok (.close_work_order wo.name status)

/-- `stop_unstop_with_rm_check`. -/
def stop_unstop_with_rm_check (wo : WorkOrder) (status : String) :
    Except WOError NativeCall :=
  if status = "Stopped" then
    match validate_no_unreturned_rm wo "Stop" with
    | .error e => .error e
    | .ok _ => .ok (.stop_unstop wo.name status)
  else
    .ok (.stop_unstop wo.name status)

/-! ## `return_and_close` -/

/-- Result row of the first SQL query (original Material Transfer for
Manufacture detail rows into WIP, grouped by item, batch and source
warehouse).  `original_rate` is `NULL` when the summed quantity is zero
(`NULLIF`). -/
structure OrigBatch where
  item_code : String
  batch_no : Option String
  s_warehouse : Option String
  issued_qty : ℚ
  original_rate : Option ℚ
deriving DecidableEq

/-- Result row of the second SQL query (return rows out of WIP, grouped by
item and batch). -/
structure RetGroup where
  item_code : String
  batch_no : Option String
  returned_qty : ℚ
deriving DecidableEq

/-- One entry of `batch_map[item_code]`. -/
structure BatchInfo where
  batch_no : Option String
  s_warehouse_orig : Option String
  available_qty : ℚ
  original_rate : ℚ
deriving DecidableEq

/-- One item row appended to the reversing Stock Entry.  `basic_rate` and
`batch_no` are `none` when the corresponding dict key is absent. -/
structure SERow where
  item_code : String
  item_name : String
  qty : ℚ
  uom : String
  stock_uom : String
  s_warehouse : Option String
  t_warehouse : Option String
  cost_center : String
  basic_rate : Option ℚ
  batch_no : Option String
deriving DecidableEq

/-- The reversing Stock Entry document built by `return_and_close`. -/
structure StockEntry where
  purpose : String
  stock_entry_type : String
  is_return : Int
  work_order : String
  company : String
  cost_center : String
  from_warehouse : String
  items : List SERow
deriving DecidableEq

/-- WHERE clause of the first query: submitted, non-return Material
Transfer for Manufacture detail rows of this work order into the WIP
warehouse. -/
def origFilter (woName wip : String) (r : SEDRow) : Prop :=
  r.se_work_order = woName ∧
  r.se_purpose = "Material Transfer for Manufacture" ∧
  r.se_is_return = 0 ∧ r.se_docstatus = 1 ∧ r.t_warehouse = some wip

instance (woName wip : String) (r : SEDRow) :
    Decidable (origFilter woName wip r) := by
  unfold origFilter; infer_instance

/-- WHERE clause of the second query: submitted return rows of this work
order out of the WIP warehouse. -/
def retFilter (woName wip : String) (r : SEDRow) : Prop :=
  r.se_work_order = woName ∧
  r.se_purpose = "Material Transfer for Manufacture" ∧
  r.se_is_return = 1 ∧ r.se_docstatus = 1 ∧ r.s_warehouse = some wip

instance (woName wip : String) (r : SEDRow) :
    Decidable (retFilter woName wip r) := by
  unfold retFilter; infer_instance

/-- Distinct values in first-occurrence order (SQL `GROUP BY` keys). -/
def dedup {κ : Type} [DecidableEq κ] (l : List κ) : List κ :=
  l.foldl (fun acc k => if k ∈ acc then acc else acc ++ [k]) []

/-- `ORDER BY` comparison on an optional string column (ascending, `NULL`
first as in MySQL). -/
def optStrLE : Option String → Option String → Bool
  | none, _ => true
  | some _, none => false
  | some x, some y => x ≤ y

/-- `ORDER BY sed.item_code, sed.batch_no` on the grouping keys of the
first query. -/
def obKeyLE (a b : String × Option String × Option String) : Prop :=
  a.1 < b.1 ∨ (a.1 = b.1 ∧ optStrLE a.2.1 b.2.1 = true)

instance (a b : String × Option String × Option String) :
    Decidable (obKeyLE a b) := by
  unfold obKeyLE; infer_instance

/-- The first SQL query of `return_and_close`: group the matching rows by
(item, batch, source warehouse), sum quantity and amount, and order by
item code then batch number. -/
def originalBatches (db : List SEDRow) (woName wip : String) :
    List OrigBatch :=
  let rows := db.filter fun r => origFilter woName wip r
  let keys := dedup (rows.map fun r => (r.item_code, r.batch_no, r.s_warehouse))
  (keys.insertionSort obKeyLE).map fun k =>
    let grp := rows.filter fun r => (r.item_code, r.batch_no, r.s_warehouse) = k
    let q := (grp.map (·.qty)).sum
    let amt := (grp.map (·.basic_amount)).sum
    { item_code := k.1
      batch_no := k.2.1
      s_warehouse := k.2.2
      issued_qty := q
      original_rate := if q = 0 then none else some (amt / q) }

/-- The second SQL query of `return_and_close`: group the matching return
rows by (item, batch) and sum the quantity. -/
def alreadyReturned (db : List SEDRow) (woName wip : String) :
    List RetGroup :=
  let rows := db.filter fun r => retFilter woName wip r
  let keys := dedup (rows.map fun r => (r.item_code, r.batch_no))
  keys.map fun k =>
    { item_code := k.1
      batch_no := k.2
      returned_qty := ((rows.filter fun r =>
        (r.item_code, r.batch_no) = k).map (·.qty)).sum }

/-- `returned_map`: lookup of already-returned quantity keyed by
`(item_code, batch_no or "")`. -/
def returned_map (db : List SEDRow) (woName wip : String)
    (k : String × String) : ℚ :=
  ((alreadyReturned db woName wip).filter fun r =>
    (r.item_code, r.batch_no.getD "") = k).foldl
    (fun s r => s + r.returned_qty) 0

/-- `batch_map.get(item_code, [])`: the batches of one item with positive
remaining availability, in query order. -/
def batchesFor (obs : List OrigBatch) (rm : String × String → ℚ)
    (ic : String) : List BatchInfo :=
  (obs.filter (·.item_code = ic)).filterMap fun ob =>
    let available := round3 (ob.issued_qty - rm (ob.item_code, ob.batch_no.getD ""))
    if available > 1/100 then
      some { batch_no := ob.batch_no
             s_warehouse_orig := ob.s_warehouse
             available_qty := available
             original_rate := ob.original_rate.getD 0 }
    else none

/-- The per-batch allocation loop: walk the item's batches in order,
allocating `min remaining available` to each row and stopping once the
remaining excess drops to 0.01 or below. -/
def allocRows (item : ExcessItem) (wip cc : String)
    (target_wh : Option String) : ℚ → List BatchInfo → List SERow
  | _, [] => []
  | remaining, b :: bs =>
    if remaining ≤ 1/100 then []
    else
      let return_qty := min remaining b.available_qty
      { item_code := item.item_code
        item_name := item.item_name
        qty := round3 return_qty
        uom := item.stock_uom
        stock_uom := item.stock_uom
        s_warehouse := some wip
        t_warehouse := pyOrS b.s_warehouse_orig target_wh
        cost_center := cc
        basic_rate := some b.original_rate
        batch_no := if strFalsy b.batch_no then none else b.batch_no } ::
      allocRows item wip cc target_wh (round3 (remaining - return_qty)) bs

/-- WHERE clause of the warehouse-fallback query: an original outbound row
of this work order for the item whose source warehouse is set and differs
from the WIP warehouse. -/
def fallbackFilter (woName wip ic : String) (r : SEDRow) : Prop :=
  r.se_work_order = woName ∧
  r.se_purpose = "Material Transfer for Manufacture" ∧
  r.se_is_return = 0 ∧ r.se_docstatus = 1 ∧ r.item_code = ic ∧
  r.s_warehouse ≠ none ∧ r.s_warehouse ≠ some wip

instance (woName wip ic : String) (r : SEDRow) :
    Decidable (fallbackFilter woName wip ic r) := by
  unfold fallbackFilter; infer_instance

/-- The target-warehouse resolution for a batchless item: the item's
source warehouse, else the work order's source warehouse, else the source
warehouse of the first row matched by the fallback query. -/
def resolveTargetWh (wo : WorkOrder) (db : List SEDRow)
    (item : ExcessItem) : Option String :=
  let target_wh := pyOrS item.source_warehouse wo.source_warehouse
  if strFalsy target_wh then
    match (db.filter fun r =>
        fallbackFilter wo.name wo.wip_warehouse item.item_code r).head? with
    | some r => r.s_warehouse
    | none => target_wh
  else target_wh

/-- The Stock Entry rows appended for one excess item: batch-wise
allocation when lineage exists, otherwise a single un-batched row whose
target warehouse falls back from the item's source warehouse to the work
order's, then to the fallback query, throwing when all fail. -/
def rowsForItem (wo : WorkOrder) (db : List SEDRow) (obs : List OrigBatch)
    (cc : String) (item : ExcessItem) : Except WOError (List SERow) :=
  let batches := batchesFor obs
    (returned_map db wo.name wo.wip_warehouse) item.item_code
  let target_wh := pyOrS item.source_warehouse wo.source_warehouse
  if batches.isEmpty then
    let target_wh := resolveTargetWh wo db item
    if strFalsy target_wh then
      .error (.cannotDetermineWarehouse item.item_code)
    else
      .ok [{ item_code := item.item_code
             item_name := item.item_name
             qty := item.excess_qty
             uom := item.stock_uom
             stock_uom := item.stock_uom
             s_warehouse := some wo.wip_warehouse
             t_warehouse := target_wh
             cost_center := cc
             basic_rate := none
             batch_no := none }]
  else
    .ok (allocRows item wo.wip_warehouse cc target_wh item.excess_qty batches)

/-- The `for item in excess_items` loop: rows for each excess item in
order, aborting at the first thrown error. -/
def buildRows (wo : WorkOrder) (db : List SEDRow) (obs : List OrigBatch)
    (cc : String) : List ExcessItem → Except WOError (List SERow)
  | [] => .ok []
  | it :: its => do
    let rs ← rowsForItem wo db obs cc it
    let rest ← buildRows wo db obs cc its
    .ok (rs ++ rest)

/-- The structured outcome of `return_and_close`: the native close call it
issues, the reversing Stock Entry it creates (if any), and the fields of
the returned dict. -/
structure RACOutcome where
  close_call : NativeCall
  stock_entry : Option StockEntry
  status : String
  total_returned_qty : Option ℚ
  items_count : Option Nat
deriving DecidableEq

/-- `return_and_close`: recompute excess items; with none, close directly;
otherwise build, persist and submit the reversing Stock Entry, close the
work order, and report what was returned. -/
def return_and_close (wo : WorkOrder) (db : List SEDRow) :
    Except WOError RACOutcome :=
  let excess_items := get_excess_items wo
  if excess_items.isEmpty then
    .ok { close_call := .close_work_order wo.name "Closed"
          stock_entry := none
          status := "closed"
          total_returned_qty := none
          items_count := none }
  else
    let cc := wo.cost_center.getD ""
    let obs := originalBatches db wo.name wo.wip_warehouse
    match buildRows wo db obs cc excess_items with
    | .error e => .error e
    | .ok rows =>
      let se : StockEntry :=
        { purpose := "Material Transfer for Manufacture"
          stock_entry_type := "Material Transfer for Manufacture"
          is_return := 1
          work_order := wo.name
          company := wo.company
          cost_center := cc
          from_warehouse := wo.wip_warehouse
          items := rows }
      .ok { close_call := .close_work_order wo.name "Closed"
            stock_entry := some se
            status := "returned_and_closed"
            total_returned_qty := some ((excess_items.map (·.excess_qty)).sum)
            items_count := some excess_items.length }

/-- The customer's `custom_is_bwm_internal_entity` value as read from the
database (`none` when the customer row is missing or the flag unset). -/
def flagOf (db : IUDb) (c : String) : Option Int :=
  (db.customers.find? (·.name = c)).bind (·.flag)

/-- The spec's (not the code's) target-warehouse resolution for a
batchless item, for comparison with `resolveTargetWh`: "the item's
configured source warehouse or, failing that, the original outbound
movement's source warehouse excluding the WIP warehouse itself". -/
def specResolveTargetWh (wo : WorkOrder) (db : List SEDRow)
    (item : ExcessItem) : Option String :=
  pyOrS item.source_warehouse
    ((db.filter fun r =>
      fallbackFilter wo.name wo.wip_warehouse item.item_code r).head?.bind
      (·.s_warehouse))

/-! ## Concrete instances for witnesses and counterexamples -/

/-- A required item with excess 5 (transferred 5, consumed 0,
returned unset). -/
def itmA : ReqItem :=
  { item_code := "ITM"
    item_name := "Item A"
    transferred_qty := some 5
    consumed_qty := some 0
    returned_qty := none
    stock_uom := "Kgs"
    source_warehouse := some "WH-A" }

/-- A work order holding `itmA`, WIP warehouse "WIP". -/
def woA : WorkOrder :=
  { name := "WO1"
    company := "C"
    required_items := [itmA]
    cost_center := none
    wip_warehouse := "WIP"
    source_warehouse := none
    produced_qty := 1
    qty := 1 }

/-- A single original transfer of 4 units of batch B1 into WIP: the
batch's available quantity (4) is less than the item's excess (5). -/
def dbA : List SEDRow :=
  [{ se_work_order := "WO1"
     se_purpose := "Material Transfer for Manufacture"
     se_is_return := 0
     se_docstatus := 1
     item_code := "ITM"
     batch_no := some "B1"
     qty := 4
     basic_amount := 40
     s_warehouse := some "WH-A"
     t_warehouse := some "WIP" }]

/-- The excess-item entry `_get_excess_items` produces for `woA`. -/
def excA : ExcessItem :=
  { item_code := "ITM"
    item_name := "Item A"
    excess_qty := 5
    stock_uom := "Kgs"
    transferred := 5
    consumed := 0
    returned := 0
    source_warehouse := some "WH-A" }

/-- A required item with excess 5 and no item-level source warehouse. -/
def itmB : ReqItem :=
  { itmA with item_code := "ITM2", source_warehouse := none }

/-- A work order holding `itmB` whose work-order-level source warehouse is
"WH-A". -/
def woB : WorkOrder :=
  { woA with
    name := "WO2"
    required_items := [itmB]
    source_warehouse := some "WH-A" }

/-- A database with no lineage into WIP for ITM2 (so no batches), but one
original outbound movement whose source warehouse is "WH-B". -/
def dbB : List SEDRow :=
  [{ se_work_order := "WO2"
     se_purpose := "Material Transfer for Manufacture"
     se_is_return := 0
     se_docstatus := 1
     item_code := "ITM2"
     batch_no := none
     qty := 3
     basic_amount := 30
     s_warehouse := some "WH-B"
     t_warehouse := some "OTHER" }]

/-- The excess-item entry `_get_excess_items` produces for `woB`. -/
def excB : ExcessItem :=
  { excA with item_code := "ITM2", source_warehouse := none }

/-- An accounts/customers database: internal customer "CUST",
accounts 14120, 31101 and 41103 for company "C". -/
def iuDbA : IUDb :=
  { accounts :=
      [{ name := "14120 - Branch Stock Transfer - B", account_number := "14120",
         company := "C" },
       { name := "31101 - Sales - B", account_number := "31101",
         company := "C" },
       { name := "41103 - COGS - B", account_number := "41103",
         company := "C" }]
    customers := [{ name := "CUST", flag := some 1 },
                  { name := "EXT", flag := some 0 }] }

/-- An accounts database with no 14120 account for company "C". -/
def iuDbB : IUDb :=
  { accounts := [{ name := "31101 - Sales - B", account_number := "31101",
                   company := "C" }]
    customers := [{ name := "CUST", flag := some 1 }] }

/-- A two-item sales invoice for the internal customer. -/
def siA : SalesInvoice :=
  { customer := some "CUST"
    company := "C"
    items := [{ idx := 1, income_account := some "31101 - Sales - B",
                custom_original_income_account := none },
              { idx := 2, income_account := none,
                custom_original_income_account := none }]
    custom_is_branch_transfer := 0 }

/-- A one-item delivery note for the internal customer. -/
def dnA : DeliveryNote :=
  { customer := some "CUST"
    company := "C"
    items := [{ idx := 1, expense_account := some "41103 - COGS - B",
                custom_original_expense_account := none }]
    custom_is_branch_transfer := 0 }

/-- The sales invoice for the non-internal customer. -/
def siB : SalesInvoice := { siA with customer := some "EXT" }

/-- The delivery note for a missing customer. -/
def dnB : DeliveryNote := { dnA with customer := none }

/-- The single batch row `return_and_close` builds for `woA` over `dbA`:
only 4 of the 5 excess units can be allocated to batch B1. -/
def rowA : SERow :=
  { item_code := "ITM"
    item_name := "Item A"
    qty := 4
    uom := "Kgs"
    stock_uom := "Kgs"
    s_warehouse := some "WIP"
    t_warehouse := some "WH-A"
    cost_center := ""
    basic_rate := some 10
    batch_no := some "B1" }

/-- The reversing Stock Entry built for `woA` over `dbA`. -/
def seA : StockEntry :=
  { purpose := "Material Transfer for Manufacture"
    stock_entry_type := "Material Transfer for Manufacture"
    is_return := 1
    work_order := "WO1"
    company := "C"
    cost_center := ""
    from_warehouse := "WIP"
    items := [rowA] }

/-- The outcome of `return_and_close woA dbA`. -/
def outA : RACOutcome :=
  { close_call := .close_work_order "WO1" "Closed"
    stock_entry := some seA
    status := "returned_and_closed"
    total_returned_qty := some 5
    items_count := some 1 }

/-- The single batchless row built for `woB` over `dbB`: the code resolves
the target warehouse to the work order's "WH-A". -/
def rowB : SERow :=
  { item_code := "ITM2"
    item_name := "Item A"
    qty := 5
    uom := "Kgs"
    stock_uom := "Kgs"
    s_warehouse := some "WIP"
    t_warehouse := some "WH-A"
    cost_center := ""
    basic_rate := none
    batch_no := none }

/-- The reversing Stock Entry built for `woB` over `dbB`. -/
def seB : StockEntry := { seA with work_order := "WO2", items := [rowB] }

/-- The outcome of `return_and_close woB dbB`. -/
def outB : RACOutcome :=
  { outA with
    close_call := .close_work_order "WO2" "Closed"
    stock_entry := some seB }

/-- A work order with no required items, hence zero excess. -/
def woC : WorkOrder := { woA with required_items := [] }

/-! ## Lemmas: account lookup and customer flag -/

theorem get_account_sourced {db : IUDb} {n c a : String}
    (h : get_account_by_number db n c = some a) :
    ∃ ac ∈ db.accounts, ac.name = a ∧ ac.account_number = n ∧
      ac.company = c := by
  unfold get_account_by_number at h
  cases hf : db.accounts.find? fun x => x.account_number = n ∧ x.company = c with
  | none => rw [hf] at h; cases h
  | some ac =>
    rw [hf] at h
    have hm := List.mem_of_find?_eq_some hf
    have hp := List.find?_some hf
    simp only [decide_eq_true_eq] at hp
    exact ⟨ac, hm, by simpa using h, hp.1, hp.2⟩

theorem accounts_resolve_ne {db : IUDb} {c a s : String}
    (hkey : ∀ x ∈ db.accounts, ∀ y ∈ db.accounts, x.name = y.name → x = y)
    (h1 : get_account_by_number db INTERUNIT_ACCOUNT_NUMBER c = some a)
    (h2 : get_account_by_number db SALES_ACCOUNT_NUMBER c = some s) :
    s ≠ a := by
  intro he
  obtain ⟨x, hxm, hxn, hxnum, _⟩ := get_account_sourced h1
  obtain ⟨y, hym, hyn, hynum, _⟩ := get_account_sourced h2
  have hxy : x = y := hkey x hxm y hym (by rw [hxn, hyn, he])
  rw [hxy, hynum] at hxnum
  simp [INTERUNIT_ACCOUNT_NUMBER, SALES_ACCOUNT_NUMBER] at hxnum

theorem accounts_resolve_ne_cogs {db : IUDb} {c a s : String}
    (hkey : ∀ x ∈ db.accounts, ∀ y ∈ db.accounts, x.name = y.name → x = y)
    (h1 : get_account_by_number db INTERUNIT_ACCOUNT_NUMBER c = some a)
    (h2 : get_account_by_number db COGS_ACCOUNT_NUMBER c = some s) :
    s ≠ a := by
  intro he
  obtain ⟨x, hxm, hxn, hxnum, _⟩ := get_account_sourced h1
  obtain ⟨y, hym, hyn, hynum, _⟩ := get_account_sourced h2
  have hxy : x = y := hkey x hxm y hym (by rw [hxn, hyn, he])
  rw [hxy, hynum] at hxnum
  simp [INTERUNIT_ACCOUNT_NUMBER, COGS_ACCOUNT_NUMBER] at hxnum

theorem si_ok_of_sales_ne {db : IUDb} {doc : SalesInvoice} {acct : String}
    (hint : is_bwm_internal_customer db doc.customer = true)
    (hacct : get_account_by_number db INTERUNIT_ACCOUNT_NUMBER doc.company =
      some acct)
    (hne : ∀ s, get_account_by_number db SALES_ACCOUNT_NUMBER doc.company =
      some s → s ≠ acct) :
    si_before_submit db doc = .ok
      { doc with
        items := doc.items.map fun it =>
          { it with
            custom_original_income_account := some (it.income_account.getD "")
            income_account := some acct }
        custom_is_branch_transfer := 1 } := by
  unfold si_before_submit
  rw [hint, hacct]
  simp only [not_true, if_false, Bool.true_eq_false, if_neg]
  cases h31 : get_account_by_number db SALES_ACCOUNT_NUMBER doc.company with
  | none => rfl
  | some s =>
    have hfind : (doc.items.map fun it =>
        { it with
          custom_original_income_account := some (it.income_account.getD "")
          income_account := some acct }).find?
        (fun it => it.income_account = some s) = none := by
      rw [List.find?_eq_none]
      intro it hit
      obtain ⟨it0, _, rfl⟩ := List.mem_map.mp hit
      simp [Ne.symm (hne s h31)]
    simp only [hfind]

theorem dn_ok_of_cogs_ne {db : IUDb} {doc : DeliveryNote} {acct : String}
    (hint : is_bwm_internal_customer db doc.customer = true)
    (hacct : get_account_by_number db INTERUNIT_ACCOUNT_NUMBER doc.company =
      some acct)
    (hne : ∀ s, get_account_by_number db COGS_ACCOUNT_NUMBER doc.company =
      some s → s ≠ acct) :
    dn_before_submit db doc = .ok
      { doc with
        items := doc.items.map fun it =>
          { it with
            custom_original_expense_account := some (it.expense_account.getD "")
            expense_account := some acct }
        custom_is_branch_transfer := 1 } := by
  unfold dn_before_submit
  rw [hint, hacct]
  simp only [not_true, if_false, Bool.true_eq_false, if_neg]
  cases h41 : get_account_by_number db COGS_ACCOUNT_NUMBER doc.company with
  | none => rfl
  | some s =>
    have hfind : (doc.items.map fun it =>
        { it with
          custom_original_expense_account := some (it.expense_account.getD "")
          expense_account := some acct }).find?
        (fun it => it.expense_account = some s) = none := by
      rw [List.find?_eq_none]
      intro it hit
      obtain ⟨it0, _, rfl⟩ := List.mem_map.mp hit
      simp [Ne.symm (hne s h41)]
    simp only [hfind]

theorem is_internal_false {db : IUDb} {cust : Option String}
    (h : strFalsy cust = true ∨
      ∃ c, cust = some c ∧ (flagOf db c = none ∨ flagOf db c = some 0)) :
    is_bwm_internal_customer db cust = false := by
  unfold is_bwm_internal_customer
  rcases h with h | ⟨c, rfl, h⟩
  · rw [if_pos h]
  · by_cases hf : strFalsy (some c) = true
    · rw [if_pos hf]
    · rw [if_neg hf]
      rcases h with h | h <;>
        simp only [flagOf] at h <;> simp [h]

theorem excess_empty_iff (wo : WorkOrder) :
    get_excess_items wo = [] ↔
      ∀ it ∈ wo.required_items, itemExcess it ≤ 1/100 := by
  unfold get_excess_items
  rw [List.map_eq_nil_iff, List.filter_eq_nil_iff]
  constructor
  · intro h it hit
    have := h it hit
    simpa [not_lt] using this
  · intro h it hit
    simpa [not_lt] using h it hit

/-- C2: for every work order, close with status "Closed" and stop with
status "Stopped" delegate to the native operation with unchanged arguments
exactly when every required item's excess (rounded to 3 decimals, missing
values as 0) is at most 0.01, and otherwise are rejected with the
unreturned-RM error without the native operation being invoked. -/
theorem c2_close_stop_guard (wo : WorkOrder) :
    (get_excess_items wo = [] ↔
      ∀ it ∈ wo.required_items, itemExcess it ≤ 1/100) ∧
    close_work_order_with_rm_check wo "Closed" =
      (if get_excess_items wo = []
       then .ok (.close_work_order wo.name "Closed")
       else .error (.unreturnedRM "Close" wo.name (get_excess_items wo))) ∧
    stop_unstop_with_rm_check wo "Stopped" =
      (if get_excess_items wo = []
       then .ok (.stop_unstop wo.name "Stopped")
       else .error (.unreturnedRM "Stop" wo.name (get_excess_items wo))) := by
  refine ⟨excess_empty_iff wo, ?_, ?_⟩ <;>
    · simp only [close_work_order_with_rm_check, stop_unstop_with_rm_check,
        validate_no_unreturned_rm]
      cases h : get_excess_items wo with
      | nil => simp [h]
      | cons e es => simp [h]

/-- C8: for every work order, a status other than "Closed" (for close) or
"Stopped" (for stop/unstop) bypasses the unreturned-RM check entirely and
delegates to the native operation, regardless of excess. -/
theorem c8_other_status_bypasses (wo : WorkOrder) (status : String) :
    (status ≠ "Closed" → close_work_order_with_rm_check wo status =
      .ok (.close_work_order wo.name status)) ∧
    (status ≠ "Stopped" → stop_unstop_with_rm_check wo status =
      .ok (.stop_unstop wo.name status)) := by
  constructor <;> intro h <;>
    simp [close_work_order_with_rm_check, stop_unstop_with_rm_check, h]

/-- Witness for C8: `woA` has an excess item (excess 5), yet status "Open"
delegates both calls natively. -/
theorem c8_other_status_bypasses_witness :
    close_work_order_with_rm_check woA "Open" =
      .ok (.close_work_order "WO1" "Open") ∧
    stop_unstop_with_rm_check woA "Open" = .ok (.stop_unstop "WO1" "Open") :=
  ⟨(c8_other_status_bypasses woA "Open").1 (by decide),
   (c8_other_status_bypasses woA "Open").2 (by decide)⟩

/-- C3: for every sales invoice of an internal customer whose company
resolves account 14120 (accounts keyed by unique names), the before-submit
hook rewrites every item's income account to the resolved 14120 account,
stores the prior income account in the shadow field, and sets the
branch-transfer flag to 1. -/
theorem c3_si_internal_override (db : IUDb) (doc : SalesInvoice)
    (acct : String)
    (hint : is_bwm_internal_customer db doc.customer = true)
    (hacct : get_account_by_number db INTERUNIT_ACCOUNT_NUMBER doc.company =
      some acct)
    (hkey : ∀ x ∈ db.accounts, ∀ y ∈ db.accounts, x.name = y.name → x = y) :
    si_before_submit db doc = .ok
      { doc with
        items := doc.items.map fun it =>
          { it with
            custom_original_income_account := some (it.income_account.getD "")
            income_account := some acct }
        custom_is_branch_transfer := 1 } :=
  si_ok_of_sales_ne hint hacct fun _s hs => accounts_resolve_ne hkey hacct hs

/-- Witness for C3 at the concrete invoice `siA` over `iuDbA`. -/
theorem c3_si_internal_override_witness :
    si_before_submit iuDbA siA = .ok
      { siA with
        items := siA.items.map fun it =>
          { it with
            custom_original_income_account := some (it.income_account.getD "")
            income_account := some "14120 - Branch Stock Transfer - B" }
        custom_is_branch_transfer := 1 } :=
  c3_si_internal_override iuDbA siA "14120 - Branch Stock Transfer - B"
    (by decide) (by decide) (by decide)

/-- C4: for every sales invoice or delivery note of an internal customer
whose company has no account numbered 14120, the before-submit hook raises
the missing-interunit-account error, blocking submission before any item
is modified. -/
theorem c4_missing_interunit_blocks (db : IUDb) (si : SalesInvoice)
    (dn : DeliveryNote) :
    (is_bwm_internal_customer db si.customer = true →
      get_account_by_number db INTERUNIT_ACCOUNT_NUMBER si.company = none →
      si_before_submit db si = .error (.missingInterunitAccount si.company)) ∧
    (is_bwm_internal_customer db dn.customer = true →
      get_account_by_number db INTERUNIT_ACCOUNT_NUMBER dn.company = none →
      dn_before_submit db dn = .error (.missingInterunitAccount dn.company)) := by
  constructor <;> intro h1 h2 <;>
    · simp only [si_before_submit, dn_before_submit]
      rw [h1, h2]
      simp

/-- Witness for C4 over `iuDbB`, which lacks account 14120. -/
theorem c4_missing_interunit_blocks_witness :
    si_before_submit iuDbB siA = .error (.missingInterunitAccount "C") ∧
    dn_before_submit iuDbB dnA = .error (.missingInterunitAccount "C") :=
  ⟨(c4_missing_interunit_blocks iuDbB siA dnA).1 (by decide) (by decide),
   (c4_missing_interunit_blocks iuDbB siA dnA).2 (by decide) (by decide)⟩

/-- C7: for every sales invoice and delivery note whose customer is absent
or carries flag 0 or an unset flag, both before-submit hooks are complete
no-ops: the documents are returned unchanged and no error is raised. -/
theorem c7_noninternal_noop (db : IUDb) (si : SalesInvoice)
    (dn : DeliveryNote)
    (hsi : strFalsy si.customer = true ∨ ∃ c, si.customer = some c ∧
      (flagOf db c = none ∨ flagOf db c = some 0))
    (hdn : strFalsy dn.customer = true ∨ ∃ c, dn.customer = some c ∧
      (flagOf db c = none ∨ flagOf db c = some 0)) :
    si_before_submit db si = .ok si ∧ dn_before_submit db dn = .ok dn := by
  have h1 := @is_internal_false db si.customer hsi
  have h2 := @is_internal_false db dn.customer hdn
  constructor <;> simp [si_before_submit, dn_before_submit, h1, h2]

/-- Witness for C7: `siB` has flag-0 customer "EXT", `dnB` has no
customer. -/
theorem c7_noninternal_noop_witness :
    si_before_submit iuDbA siB = .ok siB ∧
    dn_before_submit iuDbA dnB = .ok dnB :=
  c7_noninternal_noop iuDbA siB dnB
    (Or.inr ⟨"EXT", rfl, Or.inr (by decide)⟩) (Or.inl (by decide))

/-- C9: for an internal customer, the post-override "Override failed"
throw is unreachable whenever the resolved 31101 (resp. 41103) account
differs from the resolved 14120 account, every item having just been set
to the 14120 account; and when 31101 (resp. 41103) does not resolve, the
integrity check is skipped and the hook still succeeds. -/
theorem c9_integrity_throw_unreachable (db : IUDb) (si : SalesInvoice)
    (dn : DeliveryNote) (a b : String) :
    (is_bwm_internal_customer db si.customer = true →
      get_account_by_number db INTERUNIT_ACCOUNT_NUMBER si.company = some a →
      get_account_by_number db SALES_ACCOUNT_NUMBER si.company ≠ some a →
      ∃ d, si_before_submit db si = .ok d) ∧
    (is_bwm_internal_customer db dn.customer = true →
      get_account_by_number db INTERUNIT_ACCOUNT_NUMBER dn.company = some b →
      get_account_by_number db COGS_ACCOUNT_NUMBER dn.company ≠ some b →
      ∃ d, dn_before_submit db dn = .ok d) := by
  constructor
  · intro h1 h2 h3
    exact ⟨_, si_ok_of_sales_ne h1 h2 fun s hs he => h3 (by rw [hs, he])⟩
  · intro h1 h2 h3
    exact ⟨_, dn_ok_of_cogs_ne h1 h2 fun s hs he => h3 (by rw [hs, he])⟩

/-- Witness for C9 over `iuDbA`, where 31101 and 41103 resolve to names
different from the 14120 account's. -/
theorem c9_integrity_throw_unreachable_witness :
    (∃ d, si_before_submit iuDbA siA = .ok d) ∧
    (∃ d, dn_before_submit iuDbA dnA = .ok d) :=
  ⟨(c9_integrity_throw_unreachable iuDbA siA dnA
      "14120 - Branch Stock Transfer - B" "14120 - Branch Stock Transfer - B").1
      (by decide) (by decide) (by decide),
   (c9_integrity_throw_unreachable iuDbA siA dnA
      "14120 - Branch Stock Transfer - B" "14120 - Branch Stock Transfer - B").2
      (by decide) (by decide) (by decide)⟩

/-! ## Lemmas: lineage queries -/

theorem mem_dedup_core {κ : Type} [DecidableEq κ] (l : List κ) :
    ∀ (acc : List κ) (x : κ),
      (x ∈ l.foldl (fun a k => if k ∈ a then a else a ++ [k]) acc) ↔
        x ∈ acc ∨ x ∈ l := by
  induction l with
  | nil => intro acc x; simp
  | cons k l ih =>
    intro acc x
    simp only [List.foldl_cons]
    rw [ih]
    by_cases hk : k ∈ acc
    · by_cases hx : x = k
      · subst hx; simp [hk]
      · simp [hk, hx]
    · by_cases hx : x = k
      · subst hx; simp [hk]
      · simp [hk, hx]

theorem mem_dedup {κ : Type} [DecidableEq κ] (l : List κ) (x : κ) :
    x ∈ dedup l ↔ x ∈ l := by
  unfold dedup
  rw [mem_dedup_core]
  simp

theorem mem_excess {wo : WorkOrder} {item : ExcessItem}
    (h : item ∈ get_excess_items wo) :
    1/100 < item.excess_qty ∧ Grid item.excess_qty := by
  unfold get_excess_items at h
  obtain ⟨it, hit, rfl⟩ := List.mem_map.mp h
  have hf := List.mem_filter.mp hit
  exact ⟨by simpa using of_decide_eq_true hf.2, grid_round3 _⟩

theorem originalBatches_sourced {db : List SEDRow} {n w : String}
    {ob : OrigBatch} (h : ob ∈ originalBatches db n w) :
    ∃ r ∈ db, origFilter n w r ∧ r.item_code = ob.item_code ∧
      r.batch_no = ob.batch_no ∧ r.s_warehouse = ob.s_warehouse := by
  unfold originalBatches at h
  obtain ⟨k, hk, hob⟩ := List.mem_map.mp h
  have hk2 : k ∈ dedup ((db.filter fun r => origFilter n w r).map
      fun r => (r.item_code, r.batch_no, r.s_warehouse)) :=
    (List.perm_insertionSort _ _).mem_iff.mp hk
  rw [mem_dedup] at hk2
  obtain ⟨r, hr, hkey⟩ := List.mem_map.mp hk2
  have hrf := List.mem_filter.mp hr
  refine ⟨r, hrf.1, of_decide_eq_true hrf.2, ?_, ?_, ?_⟩ <;>
    · rw [← hob, ← hkey]

theorem batchesFor_entry {obs : List OrigBatch} {rm : String × String → ℚ}
    {ic : String} {b : BatchInfo} (h : b ∈ batchesFor obs rm ic) :
    1/100 < b.available_qty ∧ Grid b.available_qty ∧
      ∃ ob ∈ obs, ob.item_code = ic ∧ ob.s_warehouse = b.s_warehouse_orig := by
  simp only [batchesFor, List.mem_filterMap] at h
  obtain ⟨ob, hob, hfb⟩ := h
  have hobm := List.mem_filter.mp hob
  by_cases hc : (1/100 : ℚ) <
      round3 (ob.issued_qty - rm (ob.item_code, ob.batch_no.getD "")) 
  · rw [if_pos hc] at hfb
    cases hfb
    exact ⟨hc, grid_round3 _, ob, hobm.1, of_decide_eq_true hobm.2, rfl⟩
  · rw [if_neg hc] at hfb
    cases hfb

/-! ## Lemmas: the allocation loop -/

theorem allocRows_code (it : ExcessItem) (w c : String) (t : Option String) :
    ∀ (bs : List BatchInfo) (rem : ℚ), ∀ row ∈ allocRows it w c t rem bs,
      row.item_code = it.item_code := by
  intro bs
  induction bs with
  | nil => intro rem row hrow; simp [allocRows] at hrow
  | cons b bs ih =>
    intro rem row hrow
    simp only [allocRows] at hrow
    by_cases hr : rem ≤ 1/100
    · rw [if_pos hr] at hrow; simp at hrow
    · rw [if_neg hr] at hrow
      rcases List.mem_cons.mp hrow with h | h
      · subst h; rfl
      · exact ih _ row h

theorem allocRows_length (it : ExcessItem) (w c : String) (t : Option String) :
    ∀ (bs : List BatchInfo) (rem : ℚ),
      (allocRows it w c t rem bs).length ≤ bs.length := by
  intro bs
  induction bs with
  | nil => intro rem; simp [allocRows]
  | cons b bs ih =>
    intro rem
    simp only [allocRows]
    by_cases hr : rem ≤ 1/100
    · rw [if_pos hr]; simp
    · rw [if_neg hr]
      simp only [List.length_cons]
      exact Nat.succ_le_succ (ih _)

theorem allocRows_mem (it : ExcessItem) (w c : String) (t : Option String) :
    ∀ (bs : List BatchInfo) (rem : ℚ), Grid rem →
      (∀ b ∈ bs, 1/100 < b.available_qty ∧ Grid b.available_qty) →
      ∀ row ∈ allocRows it w c t rem bs,
        1/100 < row.qty ∧ row.s_warehouse = some w ∧
          ∃ b ∈ bs, row.t_warehouse = pyOrS b.s_warehouse_orig t := by
  intro bs
  induction bs with
  | nil => intro rem _ _ row hrow; simp [allocRows] at hrow
  | cons b bs ih =>
    intro rem hrem hbs row hrow
    simp only [allocRows] at hrow
    by_cases hr : rem ≤ 1/100
    · rw [if_pos hr] at hrow; simp at hrow
    · rw [if_neg hr] at hrow
      have hb := hbs b (List.mem_cons_self b bs)
      have hgmin : round3 (min rem b.available_qty) = min rem b.available_qty :=
        round3_grid _ (grid_min hrem hb.2)
      rcases List.mem_cons.mp hrow with h | h
      · subst h
        refine ⟨?_, rfl, b, List.mem_cons_self b bs, rfl⟩
        show 1/100 < round3 (min rem b.available_qty)
        rw [hgmin]
        exact lt_min (lt_of_not_le hr) hb.1
      · have := ih _ (grid_round3 _)
          (fun x hx => hbs x (List.mem_cons_of_mem b hx)) row h
        exact ⟨this.1, this.2.1,
          this.2.2.elim fun x hx => ⟨x, List.mem_cons_of_mem b hx.1, hx.2⟩⟩

theorem allocRows_zip_le (it : ExcessItem) (w c : String) (t : Option String) :
    ∀ (bs : List BatchInfo) (rem : ℚ), Grid rem →
      (∀ b ∈ bs, Grid b.available_qty) →
      ∀ p ∈ (allocRows it w c t rem bs).zip bs,
        p.1.qty ≤ p.2.available_qty := by
  intro bs
  induction bs with
  | nil => intro rem _ _ p hp; simp [allocRows] at hp
  | cons b bs ih =>
    intro rem hrem hbs p hp
    simp only [allocRows] at hp
    by_cases hr : rem ≤ 1/100
    · rw [if_pos hr] at hp; simp at hp
    · rw [if_neg hr] at hp
      have hb := hbs b (List.mem_cons_self b bs)
      have hgmin : round3 (min rem b.available_qty) = min rem b.available_qty :=
        round3_grid _ (grid_min hrem hb)
      rw [List.zip_cons_cons] at hp
      rcases List.mem_cons.mp hp with h | h
      · subst h
        show round3 (min rem b.available_qty) ≤ b.available_qty
        rw [hgmin]
        exact min_le_right rem b.available_qty
      · exact ih _ (grid_round3 _)
          (fun x hx => hbs x (List.mem_cons_of_mem b hx)) p h

theorem allocRows_sum_le (it : ExcessItem) (w c : String) (t : Option String) :
    ∀ (bs : List BatchInfo) (rem : ℚ), Grid rem →
      (∀ b ∈ bs, Grid b.available_qty) → 0 ≤ rem →
      ((allocRows it w c t rem bs).map (·.qty)).sum ≤ rem := by
  intro bs
  induction bs with
  | nil => intro rem _ _ h0; simp [allocRows, h0]
  | cons b bs ih =>
    intro rem hrem hbs h0
    simp only [allocRows]
    by_cases hr : rem ≤ 1/100
    · rw [if_pos hr]; simpa using h0
    · rw [if_neg hr]
      have hb := hbs b (List.mem_cons_self b bs)
      have hgmin : round3 (min rem b.available_qty) = min rem b.available_qty :=
        round3_grid _ (grid_min hrem hb)
      have hgsub : round3 (rem - min rem b.available_qty) =
          rem - min rem b.available_qty :=
        round3_grid _ (grid_sub hrem (grid_min hrem hb))
      have hrec := ih (round3 (rem - min rem b.available_qty)) (grid_round3 _)
        (fun x hx => hbs x (List.mem_cons_of_mem b hx))
        (by rw [hgsub]; simp [min_le_left])
      rw [hgsub] at hrec
      simp only [List.map_cons, List.sum_cons, hgmin, hgsub]
      linarith

theorem allocRows_residual (it : ExcessItem) (w c : String)
    (t : Option String) :
    ∀ (bs : List BatchInfo) (rem : ℚ), Grid rem →
      (∀ b ∈ bs, 1/100 < b.available_qty ∧ Grid b.available_qty) →
      rem - ((allocRows it w c t rem bs).map (·.qty)).sum ≤
        max (rem - ((bs.map (·.available_qty)).sum)) (1/100) := by
  intro bs
  induction bs with
  | nil => intro rem _ _; simp [allocRows]
  | cons b bs ih =>
    intro rem hrem hbs
    simp only [allocRows]
    by_cases hr : rem ≤ 1/100
    · rw [if_pos hr]
      simp only [List.map_nil, List.sum_nil, sub_zero]
      exact le_max_of_le_right hr
    · rw [if_neg hr]
      have hb := hbs b (List.mem_cons_self b bs)
      have hgmin : round3 (min rem b.available_qty) = min rem b.available_qty :=
        round3_grid _ (grid_min hrem hb.2)
      have hgsub : round3 (rem - min rem b.available_qty) =
          rem - min rem b.available_qty :=
        round3_grid _ (grid_sub hrem (grid_min hrem hb.2))
      have hrec := ih (round3 (rem - min rem b.available_qty)) (grid_round3 _)
        (fun x hx => hbs x (List.mem_cons_of_mem b hx))
      rw [hgsub] at hrec
      simp only [List.map_cons, List.sum_cons, hgmin, hgsub]
      have hsplit : rem - (min rem b.available_qty +
          ((allocRows it w c t (rem - min rem b.available_qty) bs).map
            (·.qty)).sum) =
          (rem - min rem b.available_qty) -
          ((allocRows it w c t (rem - min rem b.available_qty) bs).map
            (·.qty)).sum := by ring
      rw [hsplit]
      refine le_trans hrec ?_
      rcases le_total b.available_qty rem with hav | hav
      · rw [min_eq_right hav]
        apply max_le_max_right
        linarith
      · rw [min_eq_left hav]
        have hsum : 0 ≤ (bs.map (·.available_qty)).sum := by
          apply List.sum_nonneg
          intro x hx
          obtain ⟨y, hy, rfl⟩ := List.mem_map.mp hx
          have := (hbs y (List.mem_cons_of_mem b hy)).1
          linarith
        have hmx : max (rem - rem - (bs.map (·.available_qty)).sum)
            ((1:ℚ)/100) = 1/100 := by
          apply max_eq_right
          linarith
        rw [hmx]
        exact le_max_right _ _

theorem allocRows_sum_ge (it : ExcessItem) (w c : String) (t : Option String)
    (bs : List BatchInfo) (rem : ℚ) (hrem : Grid rem)
    (hbs : ∀ b ∈ bs, 1/100 < b.available_qty ∧ Grid b.available_qty) :
    min rem ((bs.map (·.available_qty)).sum) - 1/100 ≤
      ((allocRows it w c t rem bs).map (·.qty)).sum := by
  have hres := allocRows_residual it w c t bs rem hrem hbs
  rcases max_cases (rem - ((bs.map (·.available_qty)).sum)) ((1:ℚ)/100) with
    ⟨heq, _⟩ | ⟨heq, _⟩ <;> rw [heq] at hres
  · have := min_le_right rem ((bs.map (·.available_qty)).sum)
    linarith
  · have := min_le_left rem ((bs.map (·.available_qty)).sum)
    linarith

/-! ## Lemmas: per-item rows and the item loop -/

theorem strFalsy_false {o : Option String} (h : strFalsy o = false) :
    ∃ w, o = some w ∧ w ≠ "" := by
  cases o with
  | none => simp [strFalsy] at h
  | some w =>
    refine ⟨w, rfl, ?_⟩
    simpa [strFalsy] using h

theorem rowsForItem_eq_alloc {wo : WorkOrder} {db : List SEDRow}
    {obs : List OrigBatch} {cc : String} {item : ExcessItem}
    (h : batchesFor obs (returned_map db wo.name wo.wip_warehouse)
      item.item_code ≠ []) :
    rowsForItem wo db obs cc item = .ok
      (allocRows item wo.wip_warehouse cc
        (pyOrS item.source_warehouse wo.source_warehouse) item.excess_qty
        (batchesFor obs (returned_map db wo.name wo.wip_warehouse)
          item.item_code)) := by
  simp only [rowsForItem]
  rw [if_neg]
  simp [List.isEmpty_iff, h]

theorem rowsForItem_batchless {wo : WorkOrder} {db : List SEDRow}
    {obs : List OrigBatch} {cc : String} {item : ExcessItem}
    (h : batchesFor obs (returned_map db wo.name wo.wip_warehouse)
      item.item_code = []) :
    rowsForItem wo db obs cc item =
      (if strFalsy (resolveTargetWh wo db item) = true
       then .error (.cannotDetermineWarehouse item.item_code)
       else .ok [{ item_code := item.item_code
                   item_name := item.item_name
                   qty := item.excess_qty
                   uom := item.stock_uom
                   stock_uom := item.stock_uom
                   s_warehouse := some wo.wip_warehouse
                   t_warehouse := resolveTargetWh wo db item
                   cost_center := cc
                   basic_rate := none
                   batch_no := none }]) := by
  simp only [rowsForItem]
  rw [if_pos]
  simp [List.isEmpty_iff, h]

theorem rowsForItem_error_iff {wo : WorkOrder} {db : List SEDRow}
    {obs : List OrigBatch} {cc : String} {item : ExcessItem} :
    (∃ e, rowsForItem wo db obs cc item = .error e) ↔
      (batchesFor obs (returned_map db wo.name wo.wip_warehouse)
        item.item_code = [] ∧
       strFalsy (resolveTargetWh wo db item) = true) := by
  by_cases hb : batchesFor obs (returned_map db wo.name wo.wip_warehouse)
      item.item_code = []
  · rw [rowsForItem_batchless hb]
    by_cases ht : strFalsy (resolveTargetWh wo db item) = true
    · simp [ht, hb]
    · simp [ht, hb]
  · rw [rowsForItem_eq_alloc hb]
    simp [hb]

theorem rowsForItem_code {wo : WorkOrder} {db : List SEDRow}
    {obs : List OrigBatch} {cc : String} {item : ExcessItem}
    {rs : List SERow} (h : rowsForItem wo db obs cc item = .ok rs) :
    ∀ r ∈ rs, r.item_code = item.item_code := by
  by_cases hb : batchesFor obs (returned_map db wo.name wo.wip_warehouse)
      item.item_code = []
  · rw [rowsForItem_batchless hb] at h
    by_cases ht : strFalsy (resolveTargetWh wo db item) = true
    · rw [if_pos ht] at h; cases h
    · rw [if_neg ht] at h
      cases h
      intro r hr
      rw [List.mem_singleton] at hr
      subst hr
      rfl
  · rw [rowsForItem_eq_alloc hb] at h
    cases h
    exact allocRows_code item wo.wip_warehouse cc _ _ _

theorem rowsForItem_row_props {wo : WorkOrder} {db : List SEDRow}
    {obs : List OrigBatch} {cc : String} {item : ExcessItem}
    {rs : List SERow}
    (hex : 1/100 < item.excess_qty) (hgrid : Grid item.excess_qty)
    (hwh : ∀ ob ∈ obs, ∃ w, ob.s_warehouse = some w ∧ w ≠ "")
    (h : rowsForItem wo db obs cc item = .ok rs) :
    ∀ r ∈ rs, 1/100 < r.qty ∧ r.s_warehouse = some wo.wip_warehouse ∧
      ∃ w, r.t_warehouse = some w ∧ w ≠ "" := by
  by_cases hb : batchesFor obs (returned_map db wo.name wo.wip_warehouse)
      item.item_code = []
  · rw [rowsForItem_batchless hb] at h
    by_cases ht : strFalsy (resolveTargetWh wo db item) = true
    · rw [if_pos ht] at h; cases h
    · rw [if_neg ht] at h
      cases h
      intro r hr
      rw [List.mem_singleton] at hr
      subst hr
      have ht2 : strFalsy (resolveTargetWh wo db item) = false :=
        Bool.not_eq_true _ ▸ ht
      obtain ⟨w, hw, hne⟩ := strFalsy_false ht2
      exact ⟨hex, rfl, w, hw, hne⟩
  · rw [rowsForItem_eq_alloc hb] at h
    cases h
    intro r hr
    have hbs : ∀ x ∈ batchesFor obs
        (returned_map db wo.name wo.wip_warehouse) item.item_code,
        1/100 < x.available_qty ∧ Grid x.available_qty :=
      fun x hx => ⟨(batchesFor_entry hx).1, (batchesFor_entry hx).2.1⟩
    have hm := allocRows_mem item wo.wip_warehouse cc
      (pyOrS item.source_warehouse wo.source_warehouse) _ _ hgrid hbs r hr
    refine ⟨hm.1, hm.2.1, ?_⟩
    obtain ⟨b, hbm, hbt⟩ := hm.2.2
    obtain ⟨_, _, ob, hob, _, hsw⟩ := batchesFor_entry hbm
    obtain ⟨w, hw, hne⟩ := hwh ob hob
    rw [hsw] at hw
    refine ⟨w, ?_, hne⟩
    rw [hbt, hw]
    simp [pyOrS, hne]

theorem buildRows_ok_mem {wo : WorkOrder} {db : List SEDRow}
    {obs : List OrigBatch} {cc : String} :
    ∀ {items : List ExcessItem} {rows : List SERow},
      buildRows wo db obs cc items = .ok rows →
      ∀ r ∈ rows, ∃ item ∈ items, ∃ rs,
        rowsForItem wo db obs cc item = .ok rs ∧ r ∈ rs := by
  intro items
  induction items with
  | nil =>
    intro rows h r hr
    simp only [buildRows] at h
    cases h
    simp at hr
  | cons it its ih =>
    intro rows h r hr
    simp only [buildRows, bind, Except.bind] at h
    cases h1 : rowsForItem wo db obs cc it with
    | error e => rw [h1] at h; cases h
    | ok rs =>
      rw [h1] at h
      cases h2 : buildRows wo db obs cc its with
      | error e => rw [h2] at h; cases h
      | ok rest =>
        rw [h2] at h
        cases h
        rcases List.mem_append.mp hr with hl | hl
        · exact ⟨it, List.mem_cons_self it its, rs, h1, hl⟩
        · obtain ⟨item, hm, rs2, hrs2, hr2⟩ := ih h2 r hl
          exact ⟨item, List.mem_cons_of_mem it hm, rs2, hrs2, hr2⟩

theorem buildRows_error_iff {wo : WorkOrder} {db : List SEDRow}
    {obs : List OrigBatch} {cc : String} :
    ∀ {items : List ExcessItem},
      (∃ e, buildRows wo db obs cc items = .error e) ↔
        ∃ item ∈ items, ∃ e, rowsForItem wo db obs cc item = .error e := by
  intro items
  induction items with
  | nil => simp [buildRows]
  | cons it its ih =>
    simp only [buildRows, bind, Except.bind]
    cases h1 : rowsForItem wo db obs cc it with
    | error e => simp [h1]
    | ok rs =>
      cases h2 : buildRows wo db obs cc its with
      | error e =>
        have hex : ∃ e2, buildRows wo db obs cc its = .error e2 := ⟨e, h2⟩
        rw [ih] at hex
        obtain ⟨item, hm, he⟩ := hex
        simp only [List.mem_cons]
        constructor
        · intro _; exact ⟨item, Or.inr hm, he⟩
        · intro _; exact ⟨e, rfl⟩
      | ok rest =>
        have hno : ¬ ∃ e, buildRows wo db obs cc its = .error e := by
          rw [h2]; simp
        rw [ih] at hno
        simp only [List.mem_cons]
        constructor
        · intro ⟨e, he⟩; cases he
        · intro ⟨item, hm, he⟩
          rcases hm with rfl | hm
          · rw [h1] at he; obtain ⟨e, he⟩ := he; cases he
          · exact absurd ⟨item, hm, he⟩ hno

theorem buildRows_filter {wo : WorkOrder} {db : List SEDRow}
    {obs : List OrigBatch} {cc : String} :
    ∀ {items : List ExcessItem} {rows : List SERow} {item : ExcessItem},
      (items.map (·.item_code)).Nodup →
      buildRows wo db obs cc items = .ok rows →
      item ∈ items →
      ∃ rs, rowsForItem wo db obs cc item = .ok rs ∧
        rows.filter (fun r => r.item_code = item.item_code) = rs := by
  intro items
  induction items with
  | nil => intro rows item _ _ hit; simp at hit
  | cons it its ih =>
    intro rows item hnd h hit
    simp only [buildRows, bind, Except.bind] at h
    cases h1 : rowsForItem wo db obs cc it with
    | error e => rw [h1] at h; cases h
    | ok rs =>
      rw [h1] at h
      cases h2 : buildRows wo db obs cc its with
      | error e => rw [h2] at h; cases h
      | ok rest =>
        rw [h2] at h
        cases h
        rw [List.map_cons, List.nodup_cons] at hnd
        rw [List.filter_append]
        rcases List.mem_cons.mp hit with rfl | hm
        · have hfs : rs.filter
              (fun r => r.item_code = item.item_code) = rs := by
            rw [List.filter_eq_self]
            intro r hr
            simp [rowsForItem_code h1 r hr]
          have hfr : rest.filter
              (fun r => r.item_code = item.item_code) = [] := by
            rw [List.filter_eq_nil_iff]
            intro r hr
            obtain ⟨item2, hm2, rs2, hrs2, hr2⟩ := buildRows_ok_mem h2 r hr
            have hc2 := rowsForItem_code hrs2 r hr2
            simp only [decide_eq_true_eq]
            intro hc
            rw [hc2] at hc
            exact hnd.1 (hc ▸ List.mem_map_of_mem (·.item_code) hm2)
          exact ⟨rs, h1, by rw [hfs, hfr, List.append_nil]⟩
        · obtain ⟨rs2, hrs2, hfil⟩ := ih hnd.2 h2 hm
          have hfs : rs.filter
              (fun r => r.item_code = item.item_code) = [] := by
            rw [List.filter_eq_nil_iff]
            intro r hr
            have hc1 := rowsForItem_code h1 r hr
            simp only [decide_eq_true_eq]
            intro hc
            rw [hc1] at hc
            exact hnd.1 (hc ▸ List.mem_map_of_mem (·.item_code) hm)
          exact ⟨rs2, hrs2, by rw [hfs, hfil, List.nil_append]⟩

/-! ## Lemmas: `return_and_close` inversion -/

theorem rac_no_excess {wo : WorkOrder} {db : List SEDRow}
    (h : get_excess_items wo = []) :
    return_and_close wo db = .ok
      { close_call := .close_work_order wo.name "Closed"
        stock_entry := none
        status := "closed"
        total_returned_qty := none
        items_count := none } := by
  simp [return_and_close, h]

theorem rac_ok_inv {wo : WorkOrder} {db : List SEDRow} {out : RACOutcome}
    (h : return_and_close wo db = .ok out) :
    (get_excess_items wo = [] ∧ out =
      { close_call := .close_work_order wo.name "Closed"
        stock_entry := none
        status := "closed"
        total_returned_qty := none
        items_count := none }) ∨
    (get_excess_items wo ≠ [] ∧ ∃ rows,
      buildRows wo db (originalBatches db wo.name wo.wip_warehouse)
        (wo.cost_center.getD "") (get_excess_items wo) = .ok rows ∧
      out =
        { close_call := .close_work_order wo.name "Closed"
          stock_entry := some
            { purpose := "Material Transfer for Manufacture"
              stock_entry_type := "Material Transfer for Manufacture"
              is_return := 1
              work_order := wo.name
              company := wo.company
              cost_center := wo.cost_center.getD ""
              from_warehouse := wo.wip_warehouse
              items := rows }
          status := "returned_and_closed"
          total_returned_qty :=
            some (((get_excess_items wo).map (·.excess_qty)).sum)
          items_count := some (get_excess_items wo).length }) := by
  simp only [return_and_close] at h
  by_cases hemp : (get_excess_items wo).isEmpty = true
  · left
    rw [if_pos hemp] at h
    cases h
    exact ⟨List.isEmpty_iff.mp hemp, rfl⟩
  · right
    rw [if_neg hemp] at h
    refine ⟨fun hnil => hemp (List.isEmpty_iff.mpr hnil), ?_⟩
    cases hbr : buildRows wo db (originalBatches db wo.name wo.wip_warehouse)
        (wo.cost_center.getD "") (get_excess_items wo) with
    | error e => rw [hbr] at h; cases h
    | ok rows =>
      rw [hbr] at h
      cases h
      exact ⟨rows, rfl, rfl⟩

theorem rac_error_iff {wo : WorkOrder} {db : List SEDRow} :
    (∃ e, return_and_close wo db = .error e) ↔
      ∃ item ∈ get_excess_items wo,
        batchesFor (originalBatches db wo.name wo.wip_warehouse)
          (returned_map db wo.name wo.wip_warehouse) item.item_code = [] ∧
        strFalsy (resolveTargetWh wo db item) = true := by
  constructor
  · intro ⟨e, he⟩
    simp only [return_and_close] at he
    by_cases hemp : (get_excess_items wo).isEmpty = true
    · rw [if_pos hemp] at he; cases he
    · rw [if_neg hemp] at he
      cases hbr : buildRows wo db
          (originalBatches db wo.name wo.wip_warehouse)
          (wo.cost_center.getD "") (get_excess_items wo) with
      | ok rows => rw [hbr] at he; cases he
      | error e0 =>
        obtain ⟨item, hm, he1⟩ := buildRows_error_iff.mp ⟨e0, hbr⟩
        obtain ⟨hb, ht⟩ := rowsForItem_error_iff.mp he1
        exact ⟨item, hm, hb, ht⟩
  · intro ⟨item, hm, hb, ht⟩
    obtain ⟨e, hbe⟩ := buildRows_error_iff.mpr
      ⟨item, hm, rowsForItem_error_iff.mpr ⟨hb, ht⟩⟩
    refine ⟨e, ?_⟩
    simp only [return_and_close]
    have hemp : ¬ (get_excess_items wo).isEmpty = true := by
      simp only [List.isEmpty_iff]
      exact List.ne_nil_of_mem hm
    rw [if_neg hemp, hbe]

/-! ## Claims on `return_and_close` -/

/-- C6: for every work order in which no required item's excess exceeds
0.01, `return_and_close` closes the work order directly via the native
close operation and creates no stock movement document; and every
successful outcome is the structured result distinguishing the
"already clean, closed directly" shape (status "closed", no stock entry)
from the "returned and closed" shape (status "returned_and_closed" with
the reversing document, total returned quantity and item count). -/
theorem c6_zero_excess_closes_directly (wo : WorkOrder) (db : List SEDRow) :
    ((∀ it ∈ wo.required_items, itemExcess it ≤ 1/100) →
      return_and_close wo db = .ok
        { close_call := .close_work_order wo.name "Closed"
          stock_entry := none
          status := "closed"
          total_returned_qty := none
          items_count := none }) ∧
    (∀ out, return_and_close wo db = .ok out →
      (out.status = "closed" ∧ out.stock_entry = none ∧
        out.total_returned_qty = none ∧ out.items_count = none) ∨
      (out.status = "returned_and_closed" ∧
        (∃ se, out.stock_entry = some se) ∧
        out.total_returned_qty =
          some (((get_excess_items wo).map (·.excess_qty)).sum) ∧
        out.items_count = some (get_excess_items wo).length)) := by
  constructor
  · intro h
    exact rac_no_excess ((excess_empty_iff wo).mpr h)
  · intro out hok
    rcases rac_ok_inv hok with ⟨_, rfl⟩ | ⟨_, rows, _, rfl⟩
    · left; exact ⟨rfl, rfl, rfl, rfl⟩
    · right; exact ⟨rfl, ⟨_, rfl⟩, rfl, rfl⟩

/-- Witness for C6: a work order with no required items closes directly
with no stock entry. -/
theorem c6_zero_excess_closes_directly_witness :
    return_and_close woC dbA = .ok
      { close_call := .close_work_order "WO1" "Closed"
        stock_entry := none
        status := "closed"
        total_returned_qty := none
        items_count := none } :=
  (c6_zero_excess_closes_directly woC dbA).1
    (by intro it hit; simp [woC, woA] at hit)

/-- C10: every item row of the reversing stock entry built by
`return_and_close` has quantity strictly above 0.01, source warehouse
equal to the work order's WIP warehouse and a non-empty target warehouse,
provided (platform invariant) every original outbound transfer row has a
non-empty source warehouse. -/
theorem c10_row_invariants (wo : WorkOrder) (db : List SEDRow)
    (out : RACOutcome) (se : StockEntry)
    (hdb : ∀ r ∈ db, origFilter wo.name wo.wip_warehouse r →
      ∃ w, r.s_warehouse = some w ∧ w ≠ "")
    (hok : return_and_close wo db = .ok out)
    (hse : out.stock_entry = some se) :
    ∀ row ∈ se.items, 1/100 < row.qty ∧
      row.s_warehouse = some wo.wip_warehouse ∧
      ∃ w, row.t_warehouse = some w ∧ w ≠ "" := by
  rcases rac_ok_inv hok with ⟨_, rfl⟩ | ⟨_, rows, hbr, rfl⟩
  · cases hse
  · cases hse
    intro row hrow
    obtain ⟨item, hitem, rs, hrs, hrin⟩ := buildRows_ok_mem hbr row hrow
    have hm := mem_excess hitem
    have hwh : ∀ ob ∈ originalBatches db wo.name wo.wip_warehouse,
        ∃ w, ob.s_warehouse = some w ∧ w ≠ "" := by
      intro ob hob
      obtain ⟨r, hr, hf, _, _, hsw⟩ := originalBatches_sourced hob
      obtain ⟨w, hw, hne⟩ := hdb r hr hf
      exact ⟨w, by rw [← hsw]; exact hw, hne⟩
    exact rowsForItem_row_props hm.1 hm.2 hwh hrs row hrin

/-- Witness for C10 at `woA`/`dbA`, whose reversing entry is `seA` with
the single row `rowA`. -/
theorem c10_row_invariants_witness :
    1/100 < rowA.qty ∧ rowA.s_warehouse = some "WIP" ∧
      ∃ w, rowA.t_warehouse = some w ∧ w ≠ "" :=
  c10_row_invariants woA dbA outA seA
    (by
      intro r hr hf
      simp only [dbA, List.mem_singleton] at hr
      subst hr
      exact ⟨"WH-A", rfl, by decide⟩)
    (by
      norm_num +decide [return_and_close, get_excess_items, itemExcess,
        round3, round_eq, woA, dbA, itmA, outA, seA, rowA, buildRows,
        rowsForItem, batchesFor, originalBatches, alreadyReturned,
        returned_map, dedup, origFilter, retFilter, fallbackFilter,
        allocRows, pyOrS, strFalsy, obKeyLE, optStrLE, resolveTargetWh,
        Bind.bind, Except.bind, List.filterMap_cons])
    rfl rowA (by simp [seA])

/-- C1 (amended): in the reversing stock entry built by
`return_and_close`, for each excess item with batch lineage (and item
codes pairwise distinct), each batch row's quantity is at most the paired
batch's available quantity, there are no more rows than batches, and the
total allocated never exceeds the item's excess and falls short of
`min excess (total available)` by at most 0.01 (the loop's early-stop
tolerance). -/
theorem c1_allocation_bounds (wo : WorkOrder) (db : List SEDRow)
    (out : RACOutcome) (se : StockEntry) (item : ExcessItem)
    (hnd : ((get_excess_items wo).map (·.item_code)).Nodup)
    (hok : return_and_close wo db = .ok out)
    (hse : out.stock_entry = some se)
    (hitem : item ∈ get_excess_items wo)
    (hbs : batchesFor (originalBatches db wo.name wo.wip_warehouse)
      (returned_map db wo.name wo.wip_warehouse) item.item_code ≠ []) :
    ((se.items.filter (fun r => r.item_code = item.item_code)).length ≤
      (batchesFor (originalBatches db wo.name wo.wip_warehouse)
        (returned_map db wo.name wo.wip_warehouse) item.item_code).length) ∧
    (∀ p ∈ (se.items.filter (fun r => r.item_code = item.item_code)).zip
        (batchesFor (originalBatches db wo.name wo.wip_warehouse)
          (returned_map db wo.name wo.wip_warehouse) item.item_code),
      p.1.qty ≤ p.2.available_qty) ∧
    (((se.items.filter (fun r => r.item_code = item.item_code)).map
        (·.qty)).sum ≤ item.excess_qty) ∧
    (min item.excess_qty
        (((batchesFor (originalBatches db wo.name wo.wip_warehouse)
          (returned_map db wo.name wo.wip_warehouse) item.item_code).map
          (·.available_qty)).sum) - 1/100 ≤
      ((se.items.filter (fun r => r.item_code = item.item_code)).map
        (·.qty)).sum) := by
  rcases rac_ok_inv hok with ⟨hnil, rfl⟩ | ⟨_, rows, hbr, rfl⟩
  · cases hse
  · cases hse
    obtain ⟨rs, hrs, hfil⟩ := buildRows_filter hnd hbr hitem
    rw [rowsForItem_eq_alloc hbs] at hrs
    cases hrs
    have hex := mem_excess hitem
    have hav : ∀ x ∈ batchesFor (originalBatches db wo.name wo.wip_warehouse)
        (returned_map db wo.name wo.wip_warehouse) item.item_code,
        1/100 < x.available_qty ∧ Grid x.available_qty :=
      fun x hx => ⟨(batchesFor_entry hx).1, (batchesFor_entry hx).2.1⟩
    refine ⟨?_, ?_, ?_, ?_⟩ <;> simp only [hfil]
    · exact allocRows_length item wo.wip_warehouse (wo.cost_center.getD "")
        (pyOrS item.source_warehouse wo.source_warehouse) _ _
    · exact allocRows_zip_le item wo.wip_warehouse (wo.cost_center.getD "")
        (pyOrS item.source_warehouse wo.source_warehouse) _ _ hex.2
        (fun x hx => (hav x hx).2)
    · exact allocRows_sum_le item wo.wip_warehouse (wo.cost_center.getD "")
        (pyOrS item.source_warehouse wo.source_warehouse) _ _ hex.2
        (fun x hx => (hav x hx).2) (le_of_lt (lt_trans (by norm_num) hex.1))
    · exact allocRows_sum_ge item wo.wip_warehouse (wo.cost_center.getD "")
        (pyOrS item.source_warehouse wo.source_warehouse) _ _ hex.2 hav

/-- Counterexample to C1 as stated: at `woA`/`dbA` the item "ITM" has
batch lineage and excess 5, yet the batch rows sum to 4 (the single
batch's availability), not the excess. -/
theorem c1_sum_eq_excess_cex :
    excA ∈ get_excess_items woA ∧
    excA.item_code = "ITM" ∧ excA.excess_qty = 5 ∧
    batchesFor (originalBatches dbA "WO1" "WIP")
      (returned_map dbA "WO1" "WIP") "ITM" ≠ [] ∧
    return_and_close woA dbA = .ok outA ∧
    outA.stock_entry = some seA ∧
    ((seA.items.filter (fun r => r.item_code = "ITM")).map (·.qty)).sum = 4 ∧
    (4 : ℚ) ≠ 5 := by
  have hexc : get_excess_items woA = [excA] := by
    norm_num +decide [get_excess_items, itemExcess, round3, round_eq, woA,
      itmA, excA]
  refine ⟨by simp [hexc], rfl, rfl, ?_, ?_, rfl, ?_, by norm_num⟩
  · norm_num +decide [batchesFor, originalBatches, alreadyReturned,
      returned_map, dedup, origFilter, retFilter, dbA, round3, round_eq,
      obKeyLE, optStrLE, List.filterMap_cons]
  · norm_num +decide [return_and_close, get_excess_items, itemExcess,
      round3, round_eq, woA, dbA, itmA, outA, seA, rowA, buildRows,
      rowsForItem, batchesFor, originalBatches, alreadyReturned,
      returned_map, dedup, origFilter, retFilter, fallbackFilter,
      allocRows, pyOrS, strFalsy, obKeyLE, optStrLE, resolveTargetWh,
      Bind.bind, Except.bind, List.filterMap_cons]
  · norm_num +decide [seA, rowA]

/-- Witness for C1 (amended) at `woA`/`dbA`: one row of quantity 4
against one batch of availability 4, with excess 5. -/
theorem c1_allocation_bounds_witness :
    ((seA.items.filter (fun r => r.item_code = excA.item_code)).length ≤
      (batchesFor (originalBatches dbA woA.name woA.wip_warehouse)
        (returned_map dbA woA.name woA.wip_warehouse)
        excA.item_code).length) ∧
    (∀ p ∈ (seA.items.filter
        (fun r => r.item_code = excA.item_code)).zip
        (batchesFor (originalBatches dbA woA.name woA.wip_warehouse)
          (returned_map dbA woA.name woA.wip_warehouse) excA.item_code),
      p.1.qty ≤ p.2.available_qty) ∧
    (((seA.items.filter (fun r => r.item_code = excA.item_code)).map
        (·.qty)).sum ≤ excA.excess_qty) ∧
    (min excA.excess_qty
        (((batchesFor (originalBatches dbA woA.name woA.wip_warehouse)
          (returned_map dbA woA.name woA.wip_warehouse)
          excA.item_code).map (·.available_qty)).sum) - 1/100 ≤
      ((seA.items.filter (fun r => r.item_code = excA.item_code)).map
        (·.qty)).sum) :=
  c1_allocation_bounds woA dbA outA seA excA
    (by
      norm_num +decide [get_excess_items, itemExcess, round3, round_eq,
        woA, itmA])
    (by
      norm_num +decide [return_and_close, get_excess_items, itemExcess,
        round3, round_eq, woA, dbA, itmA, outA, seA, rowA, buildRows,
        rowsForItem, batchesFor, originalBatches, alreadyReturned,
        returned_map, dedup, origFilter, retFilter, fallbackFilter,
        allocRows, pyOrS, strFalsy, obKeyLE, optStrLE, resolveTargetWh,
        Bind.bind, Except.bind, List.filterMap_cons])
    rfl
    (by
      have hexc : get_excess_items woA = [excA] := by
        norm_num +decide [get_excess_items, itemExcess, round3, round_eq,
          woA, itmA, excA]
      simp [hexc])
    (by
      norm_num +decide [batchesFor, originalBatches, alreadyReturned,
        returned_map, dedup, origFilter, retFilter, dbA, round3, round_eq,
        obKeyLE, optStrLE, List.filterMap_cons, excA])

/-- C5 (amended): for a batchless excess item, the single un-batched
row's target warehouse is resolved from the item's source warehouse, else
the work order's source warehouse, else the first matching original
outbound movement excluding the WIP warehouse (`resolveTargetWh`), and
`return_and_close` raises a hard failure exactly when, for some excess
item without lineage, this resolution yields nothing. -/
theorem c5_batchless_warehouse_resolution (wo : WorkOrder)
    (db : List SEDRow) (cc : String) (item : ExcessItem)
    (hbs : batchesFor (originalBatches db wo.name wo.wip_warehouse)
      (returned_map db wo.name wo.wip_warehouse) item.item_code = []) :
    (rowsForItem wo db (originalBatches db wo.name wo.wip_warehouse) cc
        item = .error (.cannotDetermineWarehouse item.item_code) ↔
      strFalsy (resolveTargetWh wo db item) = true) ∧
    (∀ w, resolveTargetWh wo db item = some w → w ≠ "" →
      rowsForItem wo db (originalBatches db wo.name wo.wip_warehouse) cc
        item = .ok
        [{ item_code := item.item_code
           item_name := item.item_name
           qty := item.excess_qty
           uom := item.stock_uom
           stock_uom := item.stock_uom
           s_warehouse := some wo.wip_warehouse
           t_warehouse := some w
           cost_center := cc
           basic_rate := none
           batch_no := none }]) ∧
    ((∃ e, return_and_close wo db = .error e) ↔
      ∃ it2 ∈ get_excess_items wo,
        batchesFor (originalBatches db wo.name wo.wip_warehouse)
          (returned_map db wo.name wo.wip_warehouse) it2.item_code = [] ∧
        strFalsy (resolveTargetWh wo db it2) = true) := by
  refine ⟨?_, ?_, rac_error_iff⟩
  · rw [rowsForItem_batchless hbs]
    by_cases ht : strFalsy (resolveTargetWh wo db item) = true
    · simp [ht]
    · simp [ht]
  · intro w hw hne
    rw [rowsForItem_batchless hbs, hw]
    simp [strFalsy, hne]

/-- Counterexample to C5 as stated: at `woB`/`dbB` the batchless item
ITM2 has no item-level source warehouse; the spec's resolution (item's
source warehouse, else the original outbound movement's) yields "WH-B",
but the code resolves the work order's source warehouse "WH-A" first and
uses it as the row's target. -/
theorem c5_spec_warehouse_cex :
    excB ∈ get_excess_items woB ∧
    excB.source_warehouse = none ∧
    woB.source_warehouse = some "WH-A" ∧
    batchesFor (originalBatches dbB "WO2" "WIP")
      (returned_map dbB "WO2" "WIP") "ITM2" = [] ∧
    specResolveTargetWh woB dbB excB = some "WH-B" ∧
    return_and_close woB dbB = .ok outB ∧
    outB.stock_entry = some seB ∧
    seB.items.map (·.t_warehouse) = [some "WH-A"] ∧
    (some "WH-A" : Option String) ≠ some "WH-B" := by
  have hexc : get_excess_items woB = [excB] := by
    norm_num +decide [get_excess_items, itemExcess, round3, round_eq, woB,
      woA, itmB, itmA, excB, excA]
  refine ⟨by simp [hexc], by decide, by decide, by decide, by decide, ?_,
    rfl, by decide, by decide⟩
  norm_num +decide [return_and_close, get_excess_items, itemExcess,
    round3, round_eq, woB, woA, dbB, itmB, itmA, outB, outA, seB, seA,
    rowB, rowA, buildRows, rowsForItem, batchesFor, originalBatches,
    alreadyReturned, returned_map, dedup, origFilter, retFilter,
    fallbackFilter, allocRows, pyOrS, strFalsy, obKeyLE, optStrLE,
    resolveTargetWh, Bind.bind, Except.bind, List.filterMap_cons]

/-- Witness for C5 (amended) at `woB`/`dbB`: the resolution yields the
work order's "WH-A" and the single batchless row targets it. -/
theorem c5_batchless_warehouse_resolution_witness :
    rowsForItem woB dbB (originalBatches dbB woB.name woB.wip_warehouse)
      "" excB = .ok [rowB] :=
  (c5_batchless_warehouse_resolution woB dbB "" excB (by decide)).2.1
    "WH-A" (by decide) (by decide)

end BWM
